import Mathlib

/-!
Verification of the expo-queue job-queue core (expo-sqlite repository).

Shallow embedding conventions:
* timestamps are naturals counting epoch milliseconds (the source stores ISO
  strings and always converts with `new Date(x).getTime()` before comparing);
* `Math.random() * timeInterval` (the backoff jitter) is an explicit
  parameter, constrained to the interval the source draws from;
* the job payload is an opaque string, `metaData` is an association list
  (`undefined` is `none`, mirroring the optional TypeScript field);
* each adapter/store operation is a pure function on a list of job records;
* JavaScript `x || d` on numbers treats `0` (and `undefined`) as falsy, which
  is modelled explicitly by `jsOrNat` / `jsOrInt`.
-/

namespace ExpoQueue

/-- Job record, translated from the `Job` interface in src/src/types.ts
(second revision, the one with `maxAttempts`/`timeInterval`/`ttl`). -/
structure Job where
  id : String
  name : String
  payload : String
  metaData : Option (List (String × String))
  priority : Int
  attempts : Nat
  maxAttempts : Nat
  timeInterval : Nat
  ttl : Nat
  onlineOnly : Bool
  active : Bool
  timeout : Nat
  created : Nat
  failed : Option Nat
  workerName : Option String
  deriving Repr, DecidableEq

/-- Lookup in a metaData association list (first binding wins, like a
JavaScript object that never holds duplicate keys). -/
def metaLookup (m : List (String × String)) (k : String) : Option String :=
  match m with
  | [] => none
  | (k0, v0) :: rest => if k0 = k then some v0 else metaLookup rest k

/-- `\x7b...m, k: v\x7d` object-spread update: replace the binding for `k` in
place if present, otherwise append it. -/
def metaSet (m : List (String × String)) (k v : String) : List (String × String) :=
  match m with
  | [] => [(k, v)]
  | (k0, v0) :: rest => if k0 = k then (k, v) :: rest else (k0, v0) :: metaSet rest k v

/-- JavaScript `x || d` for an optional number: `undefined` and `0` both fall
through to the default. -/
def jsOrNat (o : Option Nat) (d : Nat) : Nat :=
  match o with
  | none => d
  | some v => if v = 0 then d else v

/-- JavaScript `x || d` for an optional integer. -/
def jsOrInt (o : Option Int) (d : Int) : Int :=
  match o with
  | none => d
  | some v => if v = 0 then d else v

/-- `JobOptions` from src/src/types.ts (fields omitted by the caller are
`none`). -/
structure JobOptions where
  priority : Option Int := none
  timeout : Option Nat := none
  attempts : Option Nat := none
  retries : Option Nat := none
  timeInterval : Option Nat := none
  ttl : Option Nat := none
  onlineOnly : Option Bool := none
  metaData : Option (List (String × String)) := none
  deriving Repr, DecidableEq

/-- The seven-day default TTL, `1000 * 60 * 60 * 24 * 7`. -/
def sevenDaysMs : Nat := 1000 * 60 * 60 * 24 * 7

/-- `createJob` from src/src/utils/helpers.ts lines 93-114: builds a fresh
job from a name, payload, and options, applying the JavaScript `||` defaults.
`id` and `now` stand for `uuidv4()` and `new Date().toISOString()`. -/
def createJob (id : String) (now : Nat) (name : String) (payload : String)
    (options : JobOptions) : Job :=
  { id := id
    name := name
    payload := payload
    metaData := some (options.metaData.getD [])
    priority := jsOrInt options.priority 0
    attempts := 0
    maxAttempts :=
      jsOrNat options.attempts
        (match options.retries with
         | none => 1
         | some r => if r = 0 then 1 else r + 1)
    timeInterval := jsOrNat options.timeInterval 0
    ttl := jsOrNat options.ttl sevenDaysMs
    onlineOnly := options.onlineOnly.getD false
    active := false
    timeout := jsOrNat options.timeout 25000
    created := now
    failed := none
    workerName := none }

/-- `isJobExpired` from src/src/utils/helpers.ts lines 9-16: a job is expired
iff its `ttl` is positive and `now - created > ttl`. -/
def isJobExpired (now : Nat) (job : Job) : Bool :=
  if job.ttl ≤ 0 then false
  else decide (now - job.created > job.ttl)

/-- `calculateRetryDelay` from src/src/utils/helpers.ts lines 27-35:
`timeInterval * 2 ^ attempts` plus the random jitter
(`Math.random() * timeInterval`), which is passed in explicitly. -/
def calculateRetryDelay (jitter : Nat) (job : Job) : Nat :=
  job.timeInterval * 2 ^ job.attempts + jitter

/-- The constraint the source's jitter satisfies: `Math.random() ∈ [0, 1)`
multiplied by `timeInterval` lies in `[0, timeInterval)` (degenerating to `0`
when `timeInterval = 0`). -/
def JitterOk (job : Job) (jitter : Nat) : Prop :=
  jitter < job.timeInterval ∨ (job.timeInterval = 0 ∧ jitter = 0)

/-- Result record of `shouldSkipByBackoff`. -/
structure BackoffResult where
  shouldSkip : Bool
  remaining : Nat
  deriving Repr, DecidableEq

/-- `shouldSkipByBackoff` from src/src/utils/helpers.ts lines 42-60.
`!job.failed` is `failed = none`; the two timestamps are epoch millis. -/
def shouldSkipByBackoff (now jitter : Nat) (job : Job) : BackoffResult :=
  match job.failed with
  | none => { shouldSkip := false, remaining := 0 }
  | some lastFailed =>
    if job.maxAttempts ≤ job.attempts then
      { shouldSkip := false, remaining := 0 }
    else
      let elapsed := now - lastFailed
      let totalDelay := calculateRetryDelay jitter job
      if elapsed < totalDelay then
        { shouldSkip := true, remaining := totalDelay - elapsed }
      else
        { shouldSkip := false, remaining := 0 }

/-- `prepareJobFailure` from src/src/utils/helpers.ts lines 70-82: copy the
job, bump `attempts`, clear `active`, stamp `failed`, and spread
`lastError` into `metaData` (spreading `undefined` yields a fresh object). -/
def prepareJobFailure (now : Nat) (job : Job) (errMessage : String) : Job :=
  { job with
    attempts := job.attempts + 1
    active := false
    failed := some now
    metaData := some (metaSet (job.metaData.getD []) "lastError" errMessage) }

/-! ## The in-memory store (src/src/adapters/memory.ts)

`MemoryAdapter` keeps a `Map<string, Job>` keyed by `id`; we model the map as
a list of records whose ids are pairwise distinct (`StoreWF`). -/

/-- The adapter's backing collection. -/
abbrev Store := List Job

/-- Well-formedness of a store: ids are pairwise distinct, as in a `Map`
keyed by `id`. -/
def StoreWF (s : Store) : Prop :=
  (s.map Job.id).Nodup

/-- `getJob` (src/src/adapters/memory.ts lines 54-56): fetch by id
(`Map.get`, i.e. the first — in a well-formed store the only — record whose
id matches). -/
def getJobStore (s : Store) (i : String) : Option Job :=
  match s with
  | [] => none
  | j :: rest => if j.id = i then some j else getJobStore rest i

/-- `updateJob` (src/src/adapters/memory.ts lines 44-48): `Map.set` guarded
by `Map.has`, so an absent id is a no-op. -/
def updateJobStore (s : Store) (j : Job) : Store :=
  if s.any (fun k => k.id = j.id) then
    s.map (fun k => if k.id = j.id then j else k)
  else s

/-- `removeJob` (src/src/adapters/memory.ts lines 50-52): `Map.delete`. -/
def removeJobStore (s : Store) (j : Job) : Store :=
  s.filter (fun k => k.id ≠ j.id)

/-- `addJob` (src/src/adapters/memory.ts lines 12-15): `Map.set`, replacing
any record with the same id. -/
def addJobStore (s : Store) (j : Job) : Store :=
  if s.any (fun k => k.id = j.id) then
    s.map (fun k => if k.id = j.id then j else k)
  else s ++ [j]

/-- Eligibility filter of `getConcurrentJobs`
(src/src/adapters/memory.ts line 23): `!job.active && attempts < maxAttempts`. -/
def claimable (j : Job) : Bool :=
  !j.active && decide (j.attempts < j.maxAttempts)

/-- Dispatch order used by the `getConcurrentJobs` comparator
(src/src/adapters/memory.ts lines 24-30): `priority` descending, then
`created` ascending. -/
def jobBefore (a b : Job) : Prop :=
  b.priority < a.priority ∨ (a.priority = b.priority ∧ a.created ≤ b.created)

instance : DecidableRel jobBefore := fun a b => by
  unfold jobBefore; infer_instance

instance : IsTotal Job jobBefore where
  total a b := by
    unfold jobBefore
    rcases lt_trichotomy a.priority b.priority with h | h | h
    · exact Or.inr (Or.inl h)
    · rcases Nat.le_total a.created b.created with h2 | h2
      · exact Or.inl (Or.inr ⟨h, h2⟩)
      · exact Or.inr (Or.inr ⟨h.symm, h2⟩)
    · exact Or.inl (Or.inl h)

instance : IsTrans Job jobBefore where
  trans a b c hab hbc := by
    unfold jobBefore at *
    rcases hab with h1 | ⟨e1, l1⟩
    · rcases hbc with h2 | ⟨e2, _⟩
      · exact Or.inl (h2.trans h1)
      · exact Or.inl (e2 ▸ h1)
    · rcases hbc with h2 | ⟨e2, l2⟩
      · exact Or.inl (e1 ▸ h2)
      · exact Or.inr ⟨e1.trans e2, l1.trans l2⟩

/-- `getConcurrentJobs(limit)` from src/src/adapters/memory.ts lines 21-42:
filter the inactive, not-yet-terminal records, sort by priority descending
then created ascending, take the first `limit`, and mark every selected
record `active = true` both in the returned copies and in the map (the source
mutates the shared objects; we return the updated records and fold the
updates back into the store). -/
def getConcurrentJobs (limit : Nat) (s : Store) : List Job × Store :=
  let selected := ((s.filter claimable).insertionSort jobBefore).take limit
  let claimed := selected.map (fun j => { j with active := true })
  (claimed, claimed.foldl updateJobStore s)

/-- A store holds a record with id `i`. -/
def hasId (s : Store) (i : String) : Prop :=
  i ∈ s.map Job.id

/-- The list of records selected by the claim before marking. -/
def claimSelected (limit : Nat) (s : Store) : List Job :=
  ((s.filter claimable).insertionSort jobBefore).take limit

/-! ## Executor (src/src/executor.ts)

`JobExecutor.execute` drives one run of a claimed job: persist the active
state, emit `start`, await the worker, then either delete the record
(success) or apply `prepareJobFailure` and route the failure. The emitter
and the adapter are the only state it touches; worker callbacks
(`onStart`, `onFailed`, ...) observe but do not change it. -/

/-- A lifecycle event emitted on the queue's EventEmitter. -/
inductive Event where
  | start (job : Job)
  | success (job : Job)
  | failure (job : Job) (err : String)
  | failed (job : Job) (err : String)
  deriving Repr, DecidableEq

/-- The state one executor run reads and writes: the live store, the
dead-letter sink, and the trace of emitted events. -/
structure ExecState where
  store : Store
  dlq : List Job
  events : List Event
  deriving Repr, DecidableEq

/-- Modelled from the spec: `moveToDLQ` has no implementation under src/ —
the `Adapter` interface declares it as an optional capability and only the
jest mock provides one — so §4.1 is followed literally: move the terminal
job to the dead-letter sink and remove it from the live set. -/
def adapterMoveToDLQ (st : ExecState) (j : Job) : ExecState :=
  { st with store := removeJobStore st.store j, dlq := st.dlq ++ [j] }

/-- `JobExecutor.execute` from src/src/executor.ts lines 24-61. `result` is
the settled outcome of `worker.execute(job)` (`.ok` = resolved, `.error msg`
= rejected with message `msg`); `hasDLQ` is the `this.adapter.moveToDLQ`
capability probe. The final `updateJob` of the failure path runs in both
branches, exactly as in the source (after a DLQ move it hits an absent id
and is a no-op). -/
def executorExecute (now : Nat) (hasDLQ : Bool) (st : ExecState) (job : Job)
    (result : Except String Unit) : ExecState :=
  let job1 := { job with active := true, failed := none }
  let st1 : ExecState :=
    { st with store := updateJobStore st.store job1,
              events := st.events ++ [Event.start job1] }
  match result with
  | Except.ok _ =>
      { st1 with store := removeJobStore st1.store job1,
                 events := st1.events ++ [Event.success job1] }
  | Except.error msg =>
      let job2 := prepareJobFailure now job1 msg
      if job2.maxAttempts ≤ job2.attempts then
        let st2 := { st1 with events := st1.events ++ [Event.failed job2 msg] }
        let st3 := if hasDLQ then adapterMoveToDLQ st2 job2 else st2
        { st3 with store := updateJobStore st3.store job2 }
      else
        { st1 with store := updateJobStore st1.store job2,
                   events := st1.events ++ [Event.failure job2 msg] }

/-- Number of `failed` events in a trace. -/
def countFailedEvents (evs : List Event) : Nat :=
  (evs.filter (fun e => match e with
    | Event.failed _ _ => true
    | _ => false)).length

/-- Number of `failure` events in a trace. -/
def countFailureEvents (evs : List Event) : Nat :=
  (evs.filter (fun e => match e with
    | Event.failure _ _ => true
    | _ => false)).length

/-- Completion behaviour of one `Worker.execute` call, translated from
src/src/executor.ts lines 100-124: the body awaits
`workerFn(job.id, job.payload)` inside try/catch/finally, re-raising its
rejection; no timer is started anywhere in the method (or in
`JobExecutor.execute`, which awaits it), and `job.timeout` is never read, so
the call settles exactly when and how the worker function settles.
`none` models a worker promise that never settles; `some (t, r)` one that
settles at time `t` with outcome `r`. -/
def workerExecuteSettlement (_job : Job)
    (fnSettlement : Option (Nat × Except String Unit)) :
    Option (Nat × Except String Unit) :=
  fnSettlement

/-! ## Queue facade (src/src/queue.ts, second revision) -/

/-- What `Queue.start` touches: the processor's activity flag, the store,
and a count of `adapter.recover` invocations. -/
structure QueueState where
  processorActive : Bool
  store : Store
  recoverCalls : Nat
  deriving Repr, DecidableEq

/-- `SQLiteAdapter.recover` (src/src/adapters/sqlite.ts lines 304-309):
`UPDATE ... SET active = 0 WHERE active = 1`. -/
def adapterRecover (s : Store) : Store :=
  s.map (fun j => if j.active then { j with active := false } else j)

/-- `Queue.start` from src/src/queue.ts lines 386-391 composed with the
guard of `JobProcessor.start` (src/unnamed/part_007 lines 34-39):
`await this.adapter.recover?.()` runs unconditionally on every call, and
only then does `processor.start()` return early when already active.
`recoverCalls` counts the `adapter.recover` invocations. -/
def queueStart (q : QueueState) : QueueState :=
  let q1 : QueueState :=
    { q with store := adapterRecover q.store,
             recoverCalls := q.recoverCalls + 1 }
  if q1.processorActive then q1 else { q1 with processorActive := true }

/-! ## Processor (src/unnamed/part_007, the refactored `JobProcessor`)

One `process()` tick: claim up to `concurrency - runningJobs` jobs, then
walk the batch applying the filters in source order; every filter-rejected
job is unclaimed (`active = false` + `updateJob`), expired jobs are removed,
and surviving jobs are dispatched to the executor. -/

/-- The record written for a claimed job with no registered worker
(src/unnamed/part_007 lines 182-192): stamp `failed`, clear `active`, and —
when `metaData` is present (the `if (job.metaData)` guard) — set
`lastError` to the literal string the source uses. `attempts` is not
touched. -/
def missingWorkerUpdate (now : Nat) (job : Job) : Job :=
  { job with
    failed := some now
    active := false
    metaData := job.metaData.map (fun m => metaSet m "lastError" "No worker found") }

/-- The processor state a tick starts from. -/
structure ProcState where
  status : Bool
  runningJobs : Nat
  concurrency : Nat
  isConnected : Bool
  pausedJobNames : List String
  workers : List String
  store : Store
  deriving Repr, DecidableEq

/-- The mutable loop state of one batch walk. -/
structure LoopState where
  store : Store
  runningJobs : Nat
  jobsStartedThisBatch : Nat
  hasSkippedBackoff : Bool
  nextBackoffDelay : Option Nat
  dispatched : List Job
  deriving Repr, DecidableEq

/-- The `unclaim` closure of src/unnamed/part_007 lines 130-133:
`j.active = false; await this.adapter.updateJob(j)`. -/
def unclaimJob (store : Store) (j : Job) : Store :=
  updateJobStore store { j with active := false }

/-- `Math.min` accumulation of `nextBackoffDelay` (`none` = `Infinity`). -/
def minDelay (cur : Option Nat) (d : Nat) : Option Nat :=
  match cur with
  | none => some d
  | some c => some (min c d)

/-- One iteration of the `for (const job of jobs)` loop of
src/unnamed/part_007 lines 135-203, with the guards in source order:
stopped mid-batch, over the concurrency budget, paused name, TTL expiry,
retry backoff, online-only while offline, max-attempts safety net, missing
worker, and finally dispatch. `jitterOf` supplies the random jitter the
backoff check draws for this job. -/
def processJob (now : Nat) (jitterOf : Job → Nat) (P : ProcState)
    (ls : LoopState) (job : Job) : LoopState :=
  if P.status = false then
    { ls with store := unclaimJob ls.store job }
  else if P.concurrency ≤ ls.runningJobs then
    { ls with store := unclaimJob ls.store job }
  else if P.pausedJobNames.contains job.name then
    { ls with store := unclaimJob ls.store job }
  else if isJobExpired now job then
    { ls with store := removeJobStore ls.store job }
  else if (shouldSkipByBackoff now (jitterOf job) job).shouldSkip then
    { ls with store := unclaimJob ls.store job,
              hasSkippedBackoff := true,
              nextBackoffDelay := minDelay ls.nextBackoffDelay
                (shouldSkipByBackoff now (jitterOf job) job).remaining }
  else if job.onlineOnly && !P.isConnected then
    { ls with store := unclaimJob ls.store job }
  else if job.maxAttempts ≤ job.attempts then
    { ls with store := unclaimJob ls.store job }
  else if !(P.workers.contains job.name) then
    { ls with store := updateJobStore ls.store (missingWorkerUpdate now job) }
  else
    { ls with runningJobs := ls.runningJobs + 1,
              jobsStartedThisBatch := ls.jobsStartedThisBatch + 1,
              dispatched := ls.dispatched ++ [job] }

/-- What one tick produces: the next processor state, the batch the claim
returned, and the jobs handed to the executor. -/
structure TickResult where
  state : ProcState
  claimed : List Job
  dispatched : List Job
  deriving Repr, DecidableEq

/-- One `process()` tick of src/unnamed/part_007 lines 108-221: the inactive
and zero-slot early returns, the claim, the empty-batch deactivation, the
batch loop, and the post-loop scheduling (only its `status` writes are
state; the recursive `process()` call and the backoff timer schedule further
ticks, which the transition system below takes as separate steps). -/
def processTick (now : Nat) (jitterOf : Job → Nat) (P : ProcState) : TickResult :=
  if P.status = false then ⟨P, [], []⟩
  else
    let availableSlots := P.concurrency - P.runningJobs
    if availableSlots = 0 then ⟨P, [], []⟩
    else
      let claimed := (getConcurrentJobs availableSlots P.store).1
      let store1 := (getConcurrentJobs availableSlots P.store).2
      if claimed.isEmpty then
        ⟨{ P with store := store1,
                  status := if P.runningJobs = 0 then false else P.status },
          [], []⟩
      else
        let ls := claimed.foldl (processJob now jitterOf P)
          { store := store1, runningJobs := P.runningJobs,
            jobsStartedThisBatch := 0, hasSkippedBackoff := false,
            nextBackoffDelay := none, dispatched := [] }
        let status1 :=
          if ls.jobsStartedThisBatch = 0 ∧ ls.runningJobs = 0 ∧
              ls.hasSkippedBackoff = false
          then false else P.status
        ⟨{ P with store := ls.store, runningJobs := ls.runningJobs,
                  status := status1 },
          claimed, ls.dispatched⟩

/-- The processor's observable transitions: a `process()` tick; the
completion continuation `.finally(() => { this.runningJobs--; ... })` of a
dispatched execution; `stop()`; (re)activation by `start()`/`resumeJob`;
`pauseJob`/`resumeJob` edits of the paused set; a producer inserting a job
through the adapter; and a connectivity change reported by the network
listener. -/
inductive ProcStep : ProcState → ProcState → Prop where
  | tick (now : Nat) (jitterOf : Job → Nat) (P : ProcState) :
      ProcStep P (processTick now jitterOf P).state
  | settle (P : ProcState) (h : 0 < P.runningJobs) :
      ProcStep P { P with runningJobs := P.runningJobs - 1 }
  | stop (P : ProcState) :
      ProcStep P { P with status := false }
  | activate (P : ProcState) :
      ProcStep P { P with status := true }
  | pause (P : ProcState) (n : String) :
      ProcStep P { P with pausedJobNames := n :: P.pausedJobNames }
  | resume (P : ProcState) (n : String) :
      ProcStep P { P with pausedJobNames := P.pausedJobNames.filter (fun m => m ≠ n) }
  | enqueue (P : ProcState) (j : Job) :
      ProcStep P { P with store := addJobStore P.store j }
  | netChange (P : ProcState) (b : Bool) :
      ProcStep P { P with isConnected := b }

/-- States reachable from `P0` by any number of processor steps. -/
def ProcReachable (P0 P : ProcState) : Prop :=
  Relation.ReflTransGen ProcStep P0 P

/-! ## Concrete sample inputs used by witness theorems -/

/-- A pending job as the factory would build it. -/
def sampleJob : Job :=
  { id := "job-1", name := "email", payload := "p1",
    metaData := some [("k", "v")], priority := 0, attempts := 0,
    maxAttempts := 1, timeInterval := 0, ttl := 1000, onlineOnly := false,
    active := false, timeout := 25000, created := 0, failed := none,
    workerName := none }

/-- A later, higher-priority pending job. -/
def sampleJob2 : Job := { sampleJob with id := "job-2", priority := 1, created := 5 }

/-- A ghost record: still marked active. -/
def sampleActiveJob : Job := { sampleJob with id := "job-3", active := true }

/-- `sampleJob2` as the claim returns it. -/
def sampleClaimedJob : Job := { sampleJob2 with active := true }

/-- A two-record store. -/
def sampleStore : Store := [sampleJob, sampleJob2]

/-- An active processor with two free slots and a worker for `email`. -/
def sampleProcState : ProcState :=
  { status := true, runningJobs := 0, concurrency := 2, isConnected := true,
    pausedJobNames := [], workers := ["email"], store := sampleStore }

/-- An active processor with no registered workers. -/
def sampleNoWorkerState : ProcState :=
  { status := true, runningJobs := 0, concurrency := 1, isConnected := true,
    pausedJobNames := [], workers := [], store := [sampleJob] }

/-- A fresh batch-loop state over the one-job store. -/
def sampleLoopState : LoopState :=
  { store := [sampleJob], runningJobs := 0, jobsStartedThisBatch := 0,
    hasSkippedBackoff := false, nextBackoffDelay := none, dispatched := [] }

/-- A queue whose processor is active with an in-flight (active) record,
after the first `start()` already ran recovery once. -/
def sampleGhostQueue : QueueState :=
  { processorActive := true, store := [sampleActiveJob], recoverCalls := 1 }

/-- A job with a five-second `timeout` budget. -/
def sampleTimeoutJob : Job := { sampleJob with id := "job-slow", timeout := 5000 }

/-- A job inside its backoff window: failed at 90, base interval 5, one
attempt used out of three. -/
def backoffJob : Job :=
  { sampleJob with
    failed := some 90
    timeInterval := 5
    attempts := 1
    maxAttempts := 3 }

instance (s : Store) : Decidable (StoreWF s) := by
  unfold StoreWF
  infer_instance

instance (job : Job) (jitter : Nat) : Decidable (JitterOk job jitter) := by
  unfold JitterOk
  infer_instance

instance (s : Store) (i : String) : Decidable (hasId s i) := by
  unfold hasId
  infer_instance

/-! ### Basic store lemmas -/

theorem hasId_iff (s : Store) (i : String) :
    hasId s i ↔ ∃ k ∈ s, k.id = i := by
  simp [hasId]

theorem any_id_eq_true_iff (s : Store) (i : String) :
    (s.any (fun k => k.id = i) = true) ↔ hasId s i := by
  simp [List.any_eq_true, hasId_iff]

@[simp] theorem getJobStore_nil (i : String) : getJobStore [] i = none := rfl

@[simp] theorem getJobStore_cons (a : Job) (t : Store) (i : String) :
    getJobStore (a :: t) i = if a.id = i then some a else getJobStore t i := rfl

/-- The `Map.has` guard in `updateJob` is redundant for the pointwise view:
when no record carries the id, the pointwise replacement is the identity. -/
theorem updateJobStore_eq_map (s : Store) (j : Job) :
    updateJobStore s j = s.map (fun k => if k.id = j.id then j else k) := by
  rw [updateJobStore]
  split
  · rfl
  · next hany =>
    have hid : ∀ a ∈ s, (if a.id = j.id then j else a) = a := by
      intro a ha
      rw [if_neg]
      intro hc
      exact hany (List.any_eq_true.mpr ⟨a, ha, by simp [hc]⟩)
    calc s = s.map (fun a => a) := (List.map_id' s).symm
    _ = s.map (fun k => if k.id = j.id then j else k) :=
        (List.map_congr_left hid).symm

theorem getJobStore_updateJobStore_self (s : Store) (j : Job)
    (h : hasId s j.id) :
    getJobStore (updateJobStore s j) j.id = some j := by
  rw [updateJobStore_eq_map]
  rw [hasId_iff] at h
  induction s with
  | nil => simp at h
  | cons a t ih =>
    rw [List.map_cons, getJobStore_cons]
    by_cases ha : a.id = j.id
    · rw [if_pos ha]
      simp
    · rw [if_neg ha, if_neg ha]
      rcases h with ⟨k, hk, hki⟩
      rcases List.mem_cons.mp hk with rfl | hkt
      · exact absurd hki ha
      · exact ih ⟨k, hkt, hki⟩

theorem getJobStore_updateJobStore_ne (s : Store) (j : Job) (i : String)
    (h : i ≠ j.id) :
    getJobStore (updateJobStore s j) i = getJobStore s i := by
  rw [updateJobStore_eq_map]
  induction s with
  | nil => rfl
  | cons a t ih =>
    rw [List.map_cons, getJobStore_cons, getJobStore_cons]
    by_cases ha : a.id = j.id
    · rw [if_pos ha]
      have hji : ¬ j.id = i := fun hc => h hc.symm
      have hai : ¬ a.id = i := by
        intro hc
        apply hji
        rw [← ha]
        exact hc
      rw [if_neg hji, if_neg hai]
      exact ih
    · rw [if_neg ha]
      by_cases hai : a.id = i
      · rw [if_pos hai, if_pos hai]
      · rw [if_neg hai, if_neg hai]
        exact ih

theorem getJobStore_removeJobStore_self (s : Store) (j : Job) :
    getJobStore (removeJobStore s j) j.id = none := by
  rw [removeJobStore]
  induction s with
  | nil => rfl
  | cons a t ih =>
    rw [List.filter_cons]
    by_cases ha : a.id = j.id
    · rw [if_neg (by simp [ha])]
      exact ih
    · rw [if_pos (by simp [ha]), getJobStore_cons, if_neg ha]
      exact ih

theorem getJobStore_removeJobStore_ne (s : Store) (j : Job) (i : String)
    (h : i ≠ j.id) :
    getJobStore (removeJobStore s j) i = getJobStore s i := by
  rw [removeJobStore]
  induction s with
  | nil => rfl
  | cons a t ih =>
    rw [List.filter_cons, getJobStore_cons]
    by_cases ha : a.id = j.id
    · have hai : ¬ a.id = i := by
        intro hc
        apply h
        rw [← hc]
        exact ha
      rw [if_neg (by simp [ha]), if_neg hai]
      exact ih
    · rw [if_pos (by simp [ha]), getJobStore_cons]
      by_cases hai : a.id = i
      · rw [if_pos hai, if_pos hai]
      · rw [if_neg hai, if_neg hai]
        exact ih

theorem map_id_updateJobStore (s : Store) (j : Job) :
    (updateJobStore s j).map Job.id = s.map Job.id := by
  rw [updateJobStore_eq_map, List.map_map]
  apply List.map_congr_left
  intro a _
  by_cases ha : a.id = j.id
  · simp [Function.comp, ha]
  · simp [Function.comp, ha]

theorem hasId_updateJobStore (s : Store) (j : Job) (i : String) :
    hasId (updateJobStore s j) i ↔ hasId s i := by
  unfold hasId
  rw [map_id_updateJobStore]

theorem storeWF_updateJobStore (s : Store) (j : Job) (h : StoreWF s) :
    StoreWF (updateJobStore s j) := by
  unfold StoreWF
  rw [map_id_updateJobStore]
  exact h

theorem storeWF_removeJobStore (s : Store) (j : Job) (h : StoreWF s) :
    StoreWF (removeJobStore s j) := by
  unfold StoreWF at *
  exact (List.Sublist.map Job.id (List.filter_sublist s)).nodup h

theorem getJobStore_of_mem (s : Store) (j : Job)
    (hwf : StoreWF s) (hj : j ∈ s) :
    getJobStore s j.id = some j := by
  induction s with
  | nil => simp at hj
  | cons a t ih =>
    rcases List.mem_cons.mp hj with rfl | hjt
    · simp [getJobStore]
    · have ha : ¬ a.id = j.id := by
        intro hc
        unfold StoreWF at hwf
        rw [List.map_cons, List.nodup_cons] at hwf
        exact hwf.1 (hc ▸ List.mem_map_of_mem Job.id hjt)
      have hwt : StoreWF t := by
        unfold StoreWF at hwf ⊢
        rw [List.map_cons, List.nodup_cons] at hwf
        exact hwf.2
      simpa [getJobStore, ha] using ih hwt hjt

theorem getJobStore_some (s : Store) (i : String) (j : Job)
    (h : getJobStore s i = some j) : j ∈ s ∧ j.id = i := by
  induction s with
  | nil => simp [getJobStore] at h
  | cons a t ih =>
    by_cases ha : a.id = i
    · rw [getJobStore_cons, if_pos ha] at h
      obtain rfl : a = j := Option.some_inj.mp h
      exact ⟨List.mem_cons_self _ _, ha⟩
    · rw [getJobStore_cons, if_neg ha] at h
      rcases ih h with ⟨hm, hi⟩
      exact ⟨List.mem_cons_of_mem a hm, hi⟩

/-! ### Folded updates (the claim loop writes each selected record back) -/

theorem map_id_foldl_updateJobStore (l : List Job) (s : Store) :
    (l.foldl updateJobStore s).map Job.id = s.map Job.id := by
  induction l generalizing s with
  | nil => rfl
  | cons a t ih =>
    rw [List.foldl_cons, ih, map_id_updateJobStore]

theorem storeWF_foldl_updateJobStore (l : List Job) (s : Store)
    (h : StoreWF s) : StoreWF (l.foldl updateJobStore s) := by
  unfold StoreWF
  rw [map_id_foldl_updateJobStore]
  exact h

theorem getJobStore_foldl_updateJobStore_ne (l : List Job) (s : Store)
    (i : String) (h : ∀ k ∈ l, k.id ≠ i) :
    getJobStore (l.foldl updateJobStore s) i = getJobStore s i := by
  induction l generalizing s with
  | nil => rfl
  | cons a t ih =>
    rw [List.foldl_cons]
    rw [ih (updateJobStore s a) (fun k hk => h k (List.mem_cons_of_mem a hk))]
    exact getJobStore_updateJobStore_ne s a i
      (fun hc => h a (List.mem_cons_self a t) hc.symm)

theorem getJobStore_foldl_updateJobStore_self (l : List Job) (s : Store)
    (hnd : (l.map Job.id).Nodup) (k : Job) (hk : k ∈ l)
    (hpres : hasId s k.id) :
    getJobStore (l.foldl updateJobStore s) k.id = some k := by
  induction l generalizing s with
  | nil => simp at hk
  | cons a t ih =>
    rw [List.map_cons, List.nodup_cons] at hnd
    rw [List.foldl_cons]
    rcases List.mem_cons.mp hk with rfl | hkt
    · rw [getJobStore_foldl_updateJobStore_ne t (updateJobStore s k) k.id
        (fun x hx hc => hnd.1 (hc ▸ List.mem_map_of_mem Job.id hx))]
      exact getJobStore_updateJobStore_self s k hpres
    · exact ih (updateJobStore s a) hnd.2 hkt
        ((hasId_updateJobStore s a k.id).mpr hpres)

/-! ### Properties of the atomic claim -/

theorem getConcurrentJobs_fst (limit : Nat) (s : Store) :
    (getConcurrentJobs limit s).1
      = (claimSelected limit s).map (fun j => { j with active := true }) := rfl

theorem getConcurrentJobs_snd (limit : Nat) (s : Store) :
    (getConcurrentJobs limit s).2
      = (getConcurrentJobs limit s).1.foldl updateJobStore s := rfl

theorem claimSelected_mem (limit : Nat) (s : Store) (j : Job)
    (hj : j ∈ claimSelected limit s) :
    j ∈ s ∧ j.active = false ∧ j.attempts < j.maxAttempts := by
  have h1 : j ∈ (s.filter claimable).insertionSort jobBefore :=
    List.take_subset limit _ hj
  have h2 : j ∈ s.filter claimable := (List.mem_insertionSort jobBefore).mp h1
  have h3 := List.mem_filter.mp h2
  have h4 : j.active = false ∧ j.attempts < j.maxAttempts := by
    have := h3.2
    unfold claimable at this
    simp only [Bool.and_eq_true, Bool.not_eq_true', decide_eq_true_eq] at this
    exact this
  exact ⟨h3.1, h4⟩

theorem getConcurrentJobs_mem (limit : Nat) (s : Store) (k : Job)
    (hk : k ∈ (getConcurrentJobs limit s).1) :
    k.active = true ∧ k.attempts < k.maxAttempts ∧
      ∃ j0 ∈ s, j0.active = false ∧ j0.attempts < j0.maxAttempts ∧
        k = { j0 with active := true } := by
  rw [getConcurrentJobs_fst] at hk
  rcases List.mem_map.mp hk with ⟨j0, hj0, rfl⟩
  rcases claimSelected_mem limit s j0 hj0 with ⟨hmem, _, hatt⟩
  exact ⟨rfl, hatt, j0, hmem, (claimSelected_mem limit s j0 hj0).2.1, hatt, rfl⟩

theorem getConcurrentJobs_length (limit : Nat) (s : Store) :
    (getConcurrentJobs limit s).1.length ≤ limit := by
  rw [getConcurrentJobs_fst, List.length_map]
  unfold claimSelected
  rw [List.length_take]
  exact Nat.min_le_left _ _

theorem getConcurrentJobs_sorted (limit : Nat) (s : Store) :
    List.Sorted jobBefore (getConcurrentJobs limit s).1 := by
  rw [getConcurrentJobs_fst]
  have hs : List.Sorted jobBefore (claimSelected limit s) :=
    (List.sorted_insertionSort jobBefore (s.filter claimable)).sublist
      (List.take_sublist limit _)
  refine List.pairwise_map.mpr (hs.imp ?_)
  intro a b hab
  exact hab

theorem claimSelected_nodup_ids (limit : Nat) (s : Store) (hwf : StoreWF s) :
    ((claimSelected limit s).map Job.id).Nodup := by
  have h1 : ((s.filter claimable).map Job.id).Nodup :=
    hwf.sublist ((List.filter_sublist s).map Job.id)
  have h2 : (((s.filter claimable).insertionSort jobBefore).map Job.id).Nodup :=
    (((List.perm_insertionSort jobBefore (s.filter claimable)).map Job.id).nodup_iff).mpr h1
  exact h2.sublist ((List.take_sublist limit _).map Job.id)

theorem getConcurrentJobs_ids_eq (limit : Nat) (s : Store) :
    (getConcurrentJobs limit s).1.map Job.id
      = (claimSelected limit s).map Job.id := by
  rw [getConcurrentJobs_fst, List.map_map]
  rfl

theorem getConcurrentJobs_nodup_ids (limit : Nat) (s : Store)
    (hwf : StoreWF s) :
    ((getConcurrentJobs limit s).1.map Job.id).Nodup := by
  rw [getConcurrentJobs_ids_eq]
  exact claimSelected_nodup_ids limit s hwf

theorem getConcurrentJobs_complete (limit : Nat) (s : Store)
    (h : (getConcurrentJobs limit s).1.length < limit)
    (j : Job) (hj : j ∈ s) (hja : j.active = false)
    (hjm : j.attempts < j.maxAttempts) :
    { j with active := true } ∈ (getConcurrentJobs limit s).1 := by
  rw [getConcurrentJobs_fst]
  have hlen : (getConcurrentJobs limit s).1.length
      = (claimSelected limit s).length := by
    rw [getConcurrentJobs_fst, List.length_map]
  have hsel : claimSelected limit s
      = (s.filter claimable).insertionSort jobBefore := by
    unfold claimSelected
    apply List.take_of_length_le
    by_contra hgt
    push_neg at hgt
    have : (claimSelected limit s).length = limit := by
      unfold claimSelected
      rw [List.length_take]
      omega
    omega
  apply List.mem_map_of_mem
  rw [hsel, List.mem_insertionSort]
  apply List.mem_filter.mpr
  refine ⟨hj, ?_⟩
  unfold claimable
  simp [hja, hjm]

theorem getConcurrentJobs_store_ids (limit : Nat) (s : Store) :
    (getConcurrentJobs limit s).2.map Job.id = s.map Job.id := by
  rw [getConcurrentJobs_snd]
  exact map_id_foldl_updateJobStore _ s

theorem storeWF_getConcurrentJobs (limit : Nat) (s : Store)
    (hwf : StoreWF s) : StoreWF (getConcurrentJobs limit s).2 := by
  unfold StoreWF
  rw [getConcurrentJobs_store_ids]
  exact hwf

theorem getConcurrentJobs_marks (limit : Nat) (s : Store) (hwf : StoreWF s)
    (k : Job) (hk : k ∈ (getConcurrentJobs limit s).1) :
    getJobStore (getConcurrentJobs limit s).2 k.id = some k := by
  rw [getConcurrentJobs_snd]
  apply getJobStore_foldl_updateJobStore_self _ s
    (getConcurrentJobs_nodup_ids limit s hwf) k hk
  rcases getConcurrentJobs_mem limit s k hk with ⟨_, _, j0, hj0s, _, _, rfl⟩
  exact (hasId_iff s _).mpr ⟨j0, hj0s, rfl⟩

/-- Two successive claims never return records with a common id: the first
claim marks everything it returns `active = true` in the store, and the
second claim only selects inactive records. -/
theorem getConcurrentJobs_disjoint (n m : Nat) (s : Store) (hwf : StoreWF s)
    (a : Job) (ha : a ∈ (getConcurrentJobs n s).1)
    (b : Job) (hb : b ∈ (getConcurrentJobs m (getConcurrentJobs n s).2).1) :
    a.id ≠ b.id := by
  intro hab
  set s1 := (getConcurrentJobs n s).2 with hs1
  have hwf1 : StoreWF s1 := storeWF_getConcurrentJobs n s hwf
  have hmark : getJobStore s1 a.id = some a :=
    getConcurrentJobs_marks n s hwf a ha
  have haact : a.active = true := (getConcurrentJobs_mem n s a ha).1
  rcases getConcurrentJobs_mem m s1 b hb with ⟨_, _, j0, hj0s, hj0act, _, rfl⟩
  have hj0look : getJobStore s1 j0.id = some j0 :=
    getJobStore_of_mem s1 j0 hwf1 hj0s
  have : a.id = j0.id := hab
  rw [this, hj0look] at hmark
  have : j0 = a := Option.some_inj.mp hmark
  rw [this] at hj0act
  rw [haact] at hj0act
  exact Bool.true_eq_false.mp hj0act

/-! ### metaData update lemmas -/

theorem metaLookup_metaSet_self (m : List (String × String)) (k v : String) :
    metaLookup (metaSet m k v) k = some v := by
  induction m with
  | nil => simp [metaSet, metaLookup]
  | cons p rest ih =>
    by_cases hp : p.1 = k
    · simp [metaSet, metaLookup, hp]
    · simpa [metaSet, metaLookup, hp] using ih

theorem metaLookup_metaSet_ne (m : List (String × String)) (k v k2 : String)
    (h : k2 ≠ k) :
    metaLookup (metaSet m k v) k2 = metaLookup m k2 := by
  have hkk2 : ¬ k = k2 := fun hc => h hc.symm
  induction m with
  | nil => simp [metaSet, metaLookup, hkk2]
  | cons p rest ih =>
    by_cases hp : p.1 = k
    · simp [metaSet, metaLookup, hp, hkk2]
    · simp [metaSet, metaLookup, hp, ih]

/-! ### Further store lemmas -/

theorem getJobStore_eq_none_of_not_hasId (s : Store) (i : String)
    (h : ¬ hasId s i) : getJobStore s i = none := by
  induction s with
  | nil => rfl
  | cons a t ih =>
    have ha : ¬ a.id = i := fun hc => h (by simp [hasId, hc])
    rw [getJobStore_cons, if_neg ha]
    exact ih (fun hc => h (by
      rcases (hasId_iff t i).mp hc with ⟨k, hk, hki⟩
      exact (hasId_iff _ i).mpr ⟨k, List.mem_cons_of_mem a hk, hki⟩))

theorem updateJobStore_absent (s : Store) (j : Job) (h : ¬ hasId s j.id) :
    updateJobStore s j = s := by
  rw [updateJobStore, if_neg]
  intro hc
  exact h ((any_id_eq_true_iff s j.id).mp hc)

theorem getJobStore_updateJobStore_cases (s : Store) (j : Job) :
    getJobStore (updateJobStore s j) j.id = some j ∨
    getJobStore (updateJobStore s j) j.id = none := by
  by_cases h : hasId s j.id
  · exact Or.inl (getJobStore_updateJobStore_self s j h)
  · right
    rw [updateJobStore_absent s j h]
    exact getJobStore_eq_none_of_not_hasId s j.id h

theorem not_hasId_removeJobStore (s : Store) (j : Job) :
    ¬ hasId (removeJobStore s j) j.id := by
  intro hc
  rcases (hasId_iff _ _).mp hc with ⟨k, hk, hki⟩
  have := (List.mem_filter.mp hk).2
  simp at this
  exact this hki

/-! ### Batch-loop lemmas -/

theorem unclaimJob_lookup_cases (store : Store) (j : Job) :
    getJobStore (unclaimJob store j) j.id = some { j with active := false } ∨
    getJobStore (unclaimJob store j) j.id = none :=
  getJobStore_updateJobStore_cases store { j with active := false }

theorem unclaimJob_lookup_ne (store : Store) (j : Job) (i : String)
    (h : i ≠ j.id) :
    getJobStore (unclaimJob store j) i = getJobStore store i :=
  getJobStore_updateJobStore_ne store { j with active := false } i h

theorem processJob_store_frame (now : Nat) (jitterOf : Job → Nat)
    (P : ProcState) (ls : LoopState) (job : Job) (i : String)
    (h : i ≠ job.id) :
    getJobStore (processJob now jitterOf P ls job).store i
      = getJobStore ls.store i := by
  unfold processJob
  repeat' split
  all_goals
    first
      | rfl
      | exact unclaimJob_lookup_ne ls.store job i h
      | exact getJobStore_removeJobStore_ne ls.store job i h
      | exact getJobStore_updateJobStore_ne ls.store (missingWorkerUpdate now job) i h

theorem processJob_dispatched_mono (now : Nat) (jitterOf : Job → Nat)
    (P : ProcState) (ls : LoopState) (job d : Job)
    (h : d ∈ ls.dispatched) :
    d ∈ (processJob now jitterOf P ls job).dispatched := by
  unfold processJob
  repeat' split
  all_goals simp [h]

theorem foldl_processJob_store_frame (now : Nat) (jitterOf : Job → Nat)
    (P : ProcState) (l : List Job) (ls : LoopState) (i : String)
    (h : ∀ k ∈ l, k.id ≠ i) :
    getJobStore (l.foldl (processJob now jitterOf P) ls).store i
      = getJobStore ls.store i := by
  induction l generalizing ls with
  | nil => rfl
  | cons a t ih =>
    rw [List.foldl_cons]
    rw [ih (processJob now jitterOf P ls a)
        (fun k hk => h k (List.mem_cons_of_mem a hk))]
    exact processJob_store_frame now jitterOf P ls a i
      (fun hc => h a (List.mem_cons_self a t) hc.symm)

theorem foldl_processJob_dispatched_mono (now : Nat) (jitterOf : Job → Nat)
    (P : ProcState) (l : List Job) (ls : LoopState) (d : Job)
    (h : d ∈ ls.dispatched) :
    d ∈ (l.foldl (processJob now jitterOf P) ls).dispatched := by
  induction l generalizing ls with
  | nil => exact h
  | cons a t ih =>
    rw [List.foldl_cons]
    exact ih (processJob now jitterOf P ls a)
      (processJob_dispatched_mono now jitterOf P ls a d h)

theorem processJob_head_cases (now : Nat) (jitterOf : Job → Nat)
    (P : ProcState) (ls : LoopState) (j : Job) :
    j ∈ (processJob now jitterOf P ls j).dispatched ∨
    getJobStore (processJob now jitterOf P ls j).store j.id = none ∨
    ∃ j2, getJobStore (processJob now jitterOf P ls j).store j.id = some j2 ∧
      j2.active = false := by
  unfold processJob
  repeat' split
  all_goals
    first
      | (rcases unclaimJob_lookup_cases ls.store j with h | h
         · exact Or.inr (Or.inr ⟨_, h, rfl⟩)
         · exact Or.inr (Or.inl h))
      | exact Or.inr (Or.inl (getJobStore_removeJobStore_self ls.store j))
      | (rcases getJobStore_updateJobStore_cases ls.store (missingWorkerUpdate now j)
            with h | h
         · exact Or.inr (Or.inr ⟨_, h, rfl⟩)
         · exact Or.inr (Or.inl h))
      | (left; simp)

/-- Every claimed job a batch walk does not dispatch ends the walk either
deleted or written back with `active = false`. -/
theorem foldl_processJob_unclaims (now : Nat) (jitterOf : Job → Nat)
    (P : ProcState) (l : List Job) (ls : LoopState)
    (hnd : (l.map Job.id).Nodup) (j : Job) (hj : j ∈ l) :
    (∃ d ∈ (l.foldl (processJob now jitterOf P) ls).dispatched, d.id = j.id) ∨
    getJobStore (l.foldl (processJob now jitterOf P) ls).store j.id = none ∨
    ∃ j2, getJobStore (l.foldl (processJob now jitterOf P) ls).store j.id
        = some j2 ∧ j2.active = false := by
  induction l generalizing ls with
  | nil => simp at hj
  | cons a t ih =>
    rw [List.map_cons, List.nodup_cons] at hnd
    rw [List.foldl_cons]
    rcases List.mem_cons.mp hj with rfl | hjt
    · have htne : ∀ k ∈ t, k.id ≠ j.id := fun k hk hc =>
        hnd.1 (hc ▸ List.mem_map_of_mem Job.id hk)
      rcases processJob_head_cases now jitterOf P ls j with hd | hn | ⟨j2, hs, hact⟩
      · exact Or.inl ⟨j, foldl_processJob_dispatched_mono now jitterOf P t _ j hd, rfl⟩
      · refine Or.inr (Or.inl ?_)
        rw [foldl_processJob_store_frame now jitterOf P t _ j.id htne]
        exact hn
      · refine Or.inr (Or.inr ⟨j2, ?_, hact⟩)
        rw [foldl_processJob_store_frame now jitterOf P t _ j.id htne]
        exact hs
    · exact ih (processJob now jitterOf P ls a) hnd.2 hjt

/-- The batch walk never pushes `runningJobs` past the concurrency budget:
dispatch is guarded by `runningJobs < concurrency` and adds exactly one. -/
theorem processJob_running_le (now : Nat) (jitterOf : Job → Nat)
    (P : ProcState) (ls : LoopState) (job : Job)
    (h : ls.runningJobs ≤ P.concurrency) :
    (processJob now jitterOf P ls job).runningJobs ≤ P.concurrency := by
  unfold processJob
  repeat' split
  all_goals simp_all
  all_goals omega

theorem foldl_processJob_running_le (now : Nat) (jitterOf : Job → Nat)
    (P : ProcState) (l : List Job) (ls : LoopState)
    (h : ls.runningJobs ≤ P.concurrency) :
    (l.foldl (processJob now jitterOf P) ls).runningJobs ≤ P.concurrency := by
  induction l generalizing ls with
  | nil => exact h
  | cons a t ih =>
    rw [List.foldl_cons]
    exact ih (processJob now jitterOf P ls a)
      (processJob_running_le now jitterOf P ls a h)

/-! ### Tick lemmas -/

theorem processTick_concurrency (now : Nat) (jitterOf : Job → Nat)
    (P : ProcState) :
    (processTick now jitterOf P).state.concurrency = P.concurrency := by
  unfold processTick
  simp only []
  repeat' split
  all_goals rfl

theorem processTick_running_le (now : Nat) (jitterOf : Job → Nat)
    (P : ProcState) (h : P.runningJobs ≤ P.concurrency) :
    (processTick now jitterOf P).state.runningJobs ≤ P.concurrency := by
  unfold processTick
  simp only []
  repeat' split
  all_goals
    first
      | exact h
      | exact foldl_processJob_running_le now jitterOf P _ _ h

theorem processTick_claimed_length (now : Nat) (jitterOf : Job → Nat)
    (P : ProcState) :
    (processTick now jitterOf P).claimed.length
      ≤ P.concurrency - P.runningJobs := by
  unfold processTick
  simp only []
  repeat' split
  all_goals
    first
      | exact Nat.zero_le _
      | exact getConcurrentJobs_length _ _

theorem procStep_preserves_bound (P Q : ProcState) (h : ProcStep P Q)
    (hle : P.runningJobs ≤ P.concurrency) :
    Q.runningJobs ≤ Q.concurrency := by
  cases h with
  | tick now jitterOf P =>
    rw [processTick_concurrency]
    exact processTick_running_le now jitterOf P hle
  | settle P hpos => exact Nat.le_trans (Nat.sub_le _ _) hle
  | stop P => exact hle
  | activate P => exact hle
  | pause P n => exact hle
  | resume P n => exact hle
  | enqueue P j => exact hle
  | netChange P b => exact hle

/-! ## Claim theorems -/

/-- C1: every job returned by the claim call that the tick neither
dispatches to a worker nor deletes ends the tick written back to the store
with `active = false` (the unclaim of the paused, backoff, online-only,
over-budget/inactive and safety-net filters, and the missing-worker write):
after the tick, a claimed job is dispatched, absent from the store, or
stored inactive — no claimed-but-undispatched job remains marked active. -/
theorem C1_tick_unclaims_undispatched (now : Nat) (jitterOf : Job → Nat)
    (P : ProcState) (hwf : StoreWF P.store) (j : Job)
    (hj : j ∈ (processTick now jitterOf P).claimed) :
    (∃ d ∈ (processTick now jitterOf P).dispatched, d.id = j.id) ∨
    getJobStore (processTick now jitterOf P).state.store j.id = none ∨
    ∃ j2, getJobStore (processTick now jitterOf P).state.store j.id = some j2 ∧
      j2.active = false := by
  unfold processTick at hj ⊢
  simp only [] at hj ⊢
  by_cases h1 : P.status = false
  · rw [if_pos h1] at hj
    simp at hj
  · rw [if_neg h1] at hj ⊢
    by_cases h2 : P.concurrency - P.runningJobs = 0
    · rw [if_pos h2] at hj
      simp at hj
    · rw [if_neg h2] at hj ⊢
      by_cases h3 : ((getConcurrentJobs (P.concurrency - P.runningJobs)
          P.store).1).isEmpty = true
      · rw [if_pos h3] at hj
        simp at hj
      · rw [if_neg h3] at hj ⊢
        simp only [] at hj ⊢
        exact foldl_processJob_unclaims now jitterOf P _ _
          (getConcurrentJobs_nodup_ids _ _ hwf) j hj

/-- Witness for C1: the tick over the concrete two-job store settles the
high-priority claimed job. -/
theorem C1_tick_unclaims_undispatched_witness :
    StoreWF sampleProcState.store ∧
    ((∃ d ∈ (processTick 0 (fun _ => 0) sampleProcState).dispatched,
        d.id = sampleClaimedJob.id) ∨
     getJobStore (processTick 0 (fun _ => 0) sampleProcState).state.store
        sampleClaimedJob.id = none ∨
     ∃ j2, getJobStore (processTick 0 (fun _ => 0) sampleProcState).state.store
        sampleClaimedJob.id = some j2 ∧ j2.active = false) :=
  ⟨by decide,
   C1_tick_unclaims_undispatched 0 (fun _ => 0) sampleProcState (by decide)
     sampleClaimedJob (by decide)⟩

/-- C2 (code-bug evidence): `Queue.start()` is not idempotent — a second
call while the processor is active still re-invokes `adapter.recover`,
resetting the in-flight record's `active` flag, against the method's own
doc comment ("If already active, this method does nothing"). -/
theorem C2_second_start_reinvokes_recover :
    sampleGhostQueue.processorActive = true ∧
    (queueStart sampleGhostQueue).recoverCalls = 2 ∧
    getJobStore (queueStart sampleGhostQueue).store "job-3"
      = some { sampleActiveJob with active := false } := by
  refine ⟨rfl, rfl, ?_⟩
  decide

/-- C3 (code-bug evidence): the worker wrapper never enforces the per-job
`timeout` budget — one invocation settles exactly when the worker function
settles (never, if the worker never settles), for any job and in particular
for one with `timeout = 5000`. -/
theorem C3_worker_timeout_not_enforced :
    sampleTimeoutJob.timeout = 5000 ∧
    workerExecuteSettlement sampleTimeoutJob none = none ∧
    ∀ (r : Except String Unit) (t : Nat),
      workerExecuteSettlement sampleTimeoutJob (some (t, r)) = some (t, r) :=
  ⟨rfl, rfl, fun _ _ => rfl⟩

/-- C4: over a well-formed store, `getConcurrentJobs limit` returns exactly
the up-to-limit records with `active = false` and `attempts < maxAttempts`
(every returned record is such a record now marked active, at most `limit`
are returned, and when fewer than `limit` come back every eligible record
is among them), ordered by priority descending then created ascending; in
the same step every returned record is stored with `active = true`; and two
successive claims never return a common id. -/
theorem C4_claim_atomic (limit : Nat) (s : Store) (hwf : StoreWF s) :
    (∀ k ∈ (getConcurrentJobs limit s).1,
        k.active = true ∧ k.attempts < k.maxAttempts ∧
        ∃ j0 ∈ s, j0.active = false ∧ j0.attempts < j0.maxAttempts ∧
          k = { j0 with active := true }) ∧
    (getConcurrentJobs limit s).1.length ≤ limit ∧
    List.Sorted jobBefore (getConcurrentJobs limit s).1 ∧
    ((getConcurrentJobs limit s).1.length < limit →
      ∀ j ∈ s, j.active = false → j.attempts < j.maxAttempts →
        { j with active := true } ∈ (getConcurrentJobs limit s).1) ∧
    (∀ k ∈ (getConcurrentJobs limit s).1,
        getJobStore (getConcurrentJobs limit s).2 k.id = some k) ∧
    (∀ m, ∀ a ∈ (getConcurrentJobs limit s).1,
        ∀ b ∈ (getConcurrentJobs m (getConcurrentJobs limit s).2).1,
          a.id ≠ b.id) :=
  ⟨fun k hk => getConcurrentJobs_mem limit s k hk,
   getConcurrentJobs_length limit s,
   getConcurrentJobs_sorted limit s,
   fun hlen j hj hja hjm => getConcurrentJobs_complete limit s hlen j hj hja hjm,
   fun k hk => getConcurrentJobs_marks limit s hwf k hk,
   fun m a ha b hb => getConcurrentJobs_disjoint limit m s hwf a ha b hb⟩

/-- Witness for C4 at the concrete two-record store with limit 1. -/
theorem C4_claim_atomic_witness :
    StoreWF sampleStore ∧
    ((∀ k ∈ (getConcurrentJobs 1 sampleStore).1,
        k.active = true ∧ k.attempts < k.maxAttempts ∧
        ∃ j0 ∈ sampleStore, j0.active = false ∧ j0.attempts < j0.maxAttempts ∧
          k = { j0 with active := true }) ∧
     (getConcurrentJobs 1 sampleStore).1.length ≤ 1 ∧
     List.Sorted jobBefore (getConcurrentJobs 1 sampleStore).1 ∧
     ((getConcurrentJobs 1 sampleStore).1.length < 1 →
       ∀ j ∈ sampleStore, j.active = false → j.attempts < j.maxAttempts →
         { j with active := true } ∈ (getConcurrentJobs 1 sampleStore).1) ∧
     (∀ k ∈ (getConcurrentJobs 1 sampleStore).1,
         getJobStore (getConcurrentJobs 1 sampleStore).2 k.id = some k) ∧
     (∀ m, ∀ a ∈ (getConcurrentJobs 1 sampleStore).1,
         ∀ b ∈ (getConcurrentJobs m (getConcurrentJobs 1 sampleStore).2).1,
           a.id ≠ b.id)) :=
  ⟨by decide, C4_claim_atomic 1 sampleStore (by decide)⟩

/-- C5: a run whose failure brings `attempts` to `maxAttempts` emits exactly
one `failed` event and no `failure` event; afterwards the record is either
moved to the DLQ (when the adapter provides `moveToDLQ`) or retained in the
live store with `attempts = maxAttempts`, and in the retained case no later
claim ever returns its id. -/
theorem C5_terminal_failure (now : Nat) (hasDLQ : Bool) (store : Store)
    (dlq : List Job) (job : Job) (msg : String)
    (hwf : StoreWF store) (hpres : hasId store job.id)
    (hterm : job.attempts + 1 = job.maxAttempts) :
    countFailedEvents (executorExecute now hasDLQ ⟨store, dlq, []⟩ job
        (Except.error msg)).events = 1 ∧
    countFailureEvents (executorExecute now hasDLQ ⟨store, dlq, []⟩ job
        (Except.error msg)).events = 0 ∧
    (hasDLQ = true →
      getJobStore (executorExecute now hasDLQ ⟨store, dlq, []⟩ job
          (Except.error msg)).store job.id = none ∧
      prepareJobFailure now { job with active := true, failed := none } msg
        ∈ (executorExecute now hasDLQ ⟨store, dlq, []⟩ job
            (Except.error msg)).dlq) ∧
    (hasDLQ = false →
      ∃ j2, getJobStore (executorExecute now hasDLQ ⟨store, dlq, []⟩ job
          (Except.error msg)).store job.id = some j2 ∧
        j2.attempts = j2.maxAttempts ∧
        ∀ limit, ∀ k ∈ (getConcurrentJobs limit
            (executorExecute now hasDLQ ⟨store, dlq, []⟩ job
              (Except.error msg)).store).1, k.id ≠ job.id) := by
  unfold executorExecute
  simp only []
  set job1 : Job := { job with active := true, failed := none } with hjob1
  set job2 : Job := prepareJobFailure now job1 msg with hjob2
  have hid2 : job2.id = job.id := by rw [hjob2, hjob1]; rfl
  have hcond : job2.maxAttempts ≤ job2.attempts := by
    rw [hjob2, hjob1]
    simp [prepareJobFailure]
    omega
  have hj2att : job2.attempts = job2.maxAttempts := by
    rw [hjob2, hjob1]
    simp [prepareJobFailure]
    omega
  rw [if_pos hcond]
  cases hasDLQ with
  | true =>
    have htt : ((true : Bool) = true) := rfl
    rw [if_pos htt]
    refine ⟨?_, ?_, ?_, ?_⟩
    · simp [countFailedEvents, adapterMoveToDLQ]
    · simp [countFailureEvents, adapterMoveToDLQ]
    · intro _
      refine ⟨?_, ?_⟩
      · simp only [adapterMoveToDLQ]
        rw [← hid2]
        rw [updateJobStore_absent _ _ (not_hasId_removeJobStore _ _)]
        exact getJobStore_removeJobStore_self _ _
      · simp [adapterMoveToDLQ]
    · intro hc
      exact absurd hc (by simp)
  | false =>
    have hff : ¬ ((false : Bool) = true) := by simp
    rw [if_neg hff]
    refine ⟨?_, ?_, ?_, ?_⟩
    · simp [countFailedEvents]
    · simp [countFailureEvents]
    · intro hc
      exact absurd hc (by simp)
    · intro _
      have hpres1 : hasId (updateJobStore store job1) job2.id := by
        rw [hid2]
        exact (hasId_updateJobStore store job1 job.id).mpr hpres
      have hlook : getJobStore (updateJobStore (updateJobStore store job1) job2)
          job2.id = some job2 :=
        getJobStore_updateJobStore_self (updateJobStore store job1) job2 hpres1
      have hlookJ : getJobStore (updateJobStore (updateJobStore store job1) job2)
          job.id = some job2 := by
        rw [← hid2]
        exact hlook
      have hwfF : StoreWF (updateJobStore (updateJobStore store job1) job2) :=
        storeWF_updateJobStore _ _ (storeWF_updateJobStore _ _ hwf)
      refine ⟨job2, hlookJ, hj2att, ?_⟩
      intro limit k hk hkid
      rcases getConcurrentJobs_mem limit _ k hk
        with ⟨_, _, j0, hj0s, hj0act, hj0att, rfl⟩
      have hj0id : j0.id = job.id := hkid
      have hj0look : getJobStore (updateJobStore (updateJobStore store job1)
          job2) j0.id = some j0 :=
        getJobStore_of_mem _ j0 hwfF hj0s
      rw [hj0id, hlookJ] at hj0look
      have hje : job2 = j0 := Option.some_inj.mp hj0look
      rw [← hje] at hj0att
      omega

/-- Witness for C5 at a concrete terminal failure without a DLQ adapter. -/
theorem C5_terminal_failure_witness :
    StoreWF [sampleJob] ∧ hasId [sampleJob] sampleJob.id ∧
    sampleJob.attempts + 1 = sampleJob.maxAttempts ∧
    (countFailedEvents (executorExecute 9 false ⟨[sampleJob], [], []⟩ sampleJob
        (Except.error "boom")).events = 1 ∧
     countFailureEvents (executorExecute 9 false ⟨[sampleJob], [], []⟩ sampleJob
        (Except.error "boom")).events = 0 ∧
     (false = true →
       getJobStore (executorExecute 9 false ⟨[sampleJob], [], []⟩ sampleJob
           (Except.error "boom")).store sampleJob.id = none ∧
       prepareJobFailure 9 { sampleJob with active := true, failed := none }
           "boom"
         ∈ (executorExecute 9 false ⟨[sampleJob], [], []⟩ sampleJob
             (Except.error "boom")).dlq) ∧
     (false = false →
       ∃ j2, getJobStore (executorExecute 9 false ⟨[sampleJob], [], []⟩
           sampleJob (Except.error "boom")).store sampleJob.id = some j2 ∧
         j2.attempts = j2.maxAttempts ∧
         ∀ limit, ∀ k ∈ (getConcurrentJobs limit
             (executorExecute 9 false ⟨[sampleJob], [], []⟩ sampleJob
               (Except.error "boom")).store).1, k.id ≠ sampleJob.id)) :=
  ⟨by decide, by decide, by decide,
   C5_terminal_failure 9 false [sampleJob] [] sampleJob "boom"
     (by decide) (by decide) (by decide)⟩

/-- C6 counterexample: enqueueing with `ttl = 0` does not store 0 — the
`options.ttl || sevenDays` default treats 0 as absent, so the stored `ttl`
is the 7-day default. -/
theorem C6_ttl_zero_counterexample :
    (createJob "id-ttl" 0 "n" "p" { ttl := some 0 }).ttl = sevenDaysMs ∧
    sevenDaysMs ≠ 0 := by
  constructor
  · rfl
  · decide

/-- C6 amended: passing `ttl = 0` (like omitting `ttl`) stores the 7-day
default — 0 is treated as "not given" by the `||` default — while any
positive `ttl` is stored as passed; and a job whose stored `ttl` field is 0
never expires: `isJobExpired` is false at every current time. -/
theorem C6_ttl_amended :
    (∀ (id : String) (now : Nat) (name payload : String) (opts : JobOptions),
      opts.ttl = some 0 → (createJob id now name payload opts).ttl = sevenDaysMs) ∧
    (∀ (id : String) (now : Nat) (name payload : String) (opts : JobOptions),
      opts.ttl = none → (createJob id now name payload opts).ttl = sevenDaysMs) ∧
    (∀ (id : String) (now : Nat) (name payload : String) (opts : JobOptions)
        (v : Nat), opts.ttl = some v → v ≠ 0 →
      (createJob id now name payload opts).ttl = v) ∧
    (∀ (job : Job) (now : Nat), job.ttl = 0 → isJobExpired now job = false) := by
  refine ⟨?_, ?_, ?_, ?_⟩
  · intro id now name payload opts h
    simp [createJob, jsOrNat, h]
  · intro id now name payload opts h
    simp [createJob, jsOrNat, h]
  · intro id now name payload opts v h hv
    simp [createJob, jsOrNat, h, hv]
  · intro job now h
    simp [isJobExpired, h]

/-- Witness for C6 at concrete inputs. -/
theorem C6_ttl_amended_witness :
    (createJob "a" 0 "n" "p" { ttl := some 0 }).ttl = sevenDaysMs ∧
    (createJob "a" 0 "n" "p" { ttl := some 60000 }).ttl = 60000 ∧
    isJobExpired 999999999 { sampleJob with ttl := 0 } = false :=
  ⟨C6_ttl_amended.1 "a" 0 "n" "p" _ rfl,
   C6_ttl_amended.2.2.1 "a" 0 "n" "p" _ 60000 rfl (by decide),
   C6_ttl_amended.2.2.2 { sampleJob with ttl := 0 } 999999999 rfl⟩

/-- C7: `shouldSkipByBackoff` returns no-skip whenever `failed` is unset or
`attempts ≥ maxAttempts`; otherwise, with
`delay = timeInterval * 2 ^ attempts + jitter` (jitter drawn from
`[0, timeInterval)`, degenerating to 0 when the interval is 0), it returns
`(skip, delay - elapsed)` exactly when `elapsed = now - failed < delay`, and
no-skip otherwise. -/
theorem C7_backoff_window (now jitter : Nat) (job : Job) :
    (job.failed = none →
      shouldSkipByBackoff now jitter job = ⟨false, 0⟩) ∧
    (job.maxAttempts ≤ job.attempts →
      shouldSkipByBackoff now jitter job = ⟨false, 0⟩) ∧
    (∀ f, job.failed = some f → job.attempts < job.maxAttempts → f ≤ now →
      JitterOk job jitter →
      ((now - f < job.timeInterval * 2 ^ job.attempts + jitter →
        shouldSkipByBackoff now jitter job
          = ⟨true, job.timeInterval * 2 ^ job.attempts + jitter - (now - f)⟩) ∧
       (job.timeInterval * 2 ^ job.attempts + jitter ≤ now - f →
        shouldSkipByBackoff now jitter job = ⟨false, 0⟩))) := by
  refine ⟨?_, ?_, ?_⟩
  · intro h
    unfold shouldSkipByBackoff
    rw [h]
  · intro h
    unfold shouldSkipByBackoff
    cases hf : job.failed with
    | none => rfl
    | some f =>
      simp only []
      rw [if_pos h]
  · intro f hf hatt hfn _hjok
    unfold shouldSkipByBackoff calculateRetryDelay
    rw [hf]
    simp only []
    rw [if_neg (not_le.mpr hatt)]
    constructor
    · intro hlt
      rw [if_pos hlt]
    · intro hge
      rw [if_neg (not_lt.mpr hge)]

/-- Witness for C7: failed at 90, now 100, interval 5, one attempt, jitter 3:
the delay is 13, the elapsed time 10, so the job is skipped with 3 ms left. -/
theorem C7_backoff_window_witness :
    backoffJob.failed = some 90 ∧ backoffJob.attempts < backoffJob.maxAttempts ∧
    JitterOk backoffJob 3 ∧
    shouldSkipByBackoff 100 3 backoffJob = ⟨true, 3⟩ :=
  ⟨rfl, by decide, by decide,
   ((C7_backoff_window 100 3 backoffJob).2.2 90 rfl (by decide) (by decide)
     (by decide)).1 (by decide)⟩

/-- C8 counterexample: for a claimed job with no registered worker the
processor records `lastError = "No worker found"` — not the string
`"no worker"` the claim states. -/
theorem C8_lasterror_counterexample :
    getJobStore (processJob 50 (fun _ => 0) sampleNoWorkerState sampleLoopState
        sampleJob).store "job-1" = some (missingWorkerUpdate 50 sampleJob) ∧
    metaLookup ((missingWorkerUpdate 50 sampleJob).metaData.getD []) "lastError"
      = some "No worker found" ∧
    metaLookup ((missingWorkerUpdate 50 sampleJob).metaData.getD []) "lastError"
      ≠ some "no worker" := by
  refine ⟨by decide, by decide, by decide⟩

/-- C8 amended: when a claimed job passing every earlier filter has no
registered worker, the loop writes the record back through `updateJob` with
`failed` set to now, `active` false, `metaData.lastError = "No worker found"`
(whenever `metaData` is present), leaves `attempts` unchanged, and dispatches
nothing for it (so no event can be emitted for the job: the executor, the
only event source, is never invoked). -/
theorem C8_missing_worker (now : Nat) (jitterOf : Job → Nat) (P : ProcState)
    (ls : LoopState) (job : Job) (m : List (String × String))
    (hstatus : P.status = true)
    (hbudget : ls.runningJobs < P.concurrency)
    (hpause : P.pausedJobNames.contains job.name = false)
    (hexp : isJobExpired now job = false)
    (hback : (shouldSkipByBackoff now (jitterOf job) job).shouldSkip = false)
    (honline : (job.onlineOnly && !P.isConnected) = false)
    (hatt : job.attempts < job.maxAttempts)
    (hworker : P.workers.contains job.name = false)
    (hmeta : job.metaData = some m) :
    processJob now jitterOf P ls job
      = { ls with store := updateJobStore ls.store (missingWorkerUpdate now job) } ∧
    (missingWorkerUpdate now job).failed = some now ∧
    (missingWorkerUpdate now job).active = false ∧
    (missingWorkerUpdate now job).attempts = job.attempts ∧
    (missingWorkerUpdate now job).metaData
      = some (metaSet m "lastError" "No worker found") ∧
    metaLookup ((missingWorkerUpdate now job).metaData.getD []) "lastError"
      = some "No worker found" ∧
    (processJob now jitterOf P ls job).dispatched = ls.dispatched ∧
    (processJob now jitterOf P ls job).jobsStartedThisBatch
      = ls.jobsStartedThisBatch := by
  have hbranch : processJob now jitterOf P ls job
      = { ls with store := updateJobStore ls.store (missingWorkerUpdate now job) } := by
    unfold processJob
    rw [if_neg (by simp [hstatus]), if_neg (not_le.mpr hbudget),
      if_neg (by simp only [hpause]; decide),
      if_neg (by simp only [hexp]; decide),
      if_neg (by simp only [hback]; decide),
      if_neg (by simp only [honline]; decide),
      if_neg (not_le.mpr hatt),
      if_pos (by simp only [hworker]; decide)]
  refine ⟨hbranch, rfl, rfl, rfl, ?_, ?_, ?_, ?_⟩
  · rw [missingWorkerUpdate]
    rw [hmeta]
    rfl
  · rw [missingWorkerUpdate, hmeta]
    exact metaLookup_metaSet_self m "lastError" "No worker found"
  · rw [hbranch]
  · rw [hbranch]

/-- Witness for C8 at the concrete no-worker processor state. -/
theorem C8_missing_worker_witness :
    processJob 50 (fun _ => 0) sampleNoWorkerState sampleLoopState sampleJob
      = { sampleLoopState with
            store := updateJobStore sampleLoopState.store
              (missingWorkerUpdate 50 sampleJob) } ∧
    (missingWorkerUpdate 50 sampleJob).failed = some 50 ∧
    (missingWorkerUpdate 50 sampleJob).active = false ∧
    (missingWorkerUpdate 50 sampleJob).attempts = sampleJob.attempts ∧
    (missingWorkerUpdate 50 sampleJob).metaData
      = some (metaSet [("k", "v")] "lastError" "No worker found") ∧
    metaLookup ((missingWorkerUpdate 50 sampleJob).metaData.getD []) "lastError"
      = some "No worker found" ∧
    (processJob 50 (fun _ => 0) sampleNoWorkerState sampleLoopState
        sampleJob).dispatched = sampleLoopState.dispatched ∧
    (processJob 50 (fun _ => 0) sampleNoWorkerState sampleLoopState
        sampleJob).jobsStartedThisBatch = sampleLoopState.jobsStartedThisBatch :=
  C8_missing_worker 50 (fun _ => 0) sampleNoWorkerState sampleLoopState
    sampleJob [("k", "v")] rfl (by decide) (by decide) (by decide) (by decide)
    (by decide) (by decide) (by decide) rfl

/-- C9: at every state reachable from a start state with no job in flight,
`runningJobs` never exceeds `concurrency` (the tick dispatches only while
under budget and increments once per dispatch, and each settled execution
decrements once), and every tick claims at most
`concurrency - runningJobs` jobs. -/
theorem C9_concurrency_bound (P0 P : ProcState) (h0 : P0.runningJobs = 0)
    (hreach : ProcReachable P0 P) :
    P.runningJobs ≤ P.concurrency ∧
    ∀ (now : Nat) (jitterOf : Job → Nat),
      (processTick now jitterOf P).claimed.length
        ≤ P.concurrency - P.runningJobs := by
  refine ⟨?_, fun now jitterOf => processTick_claimed_length now jitterOf P⟩
  unfold ProcReachable at hreach
  induction hreach with
  | refl =>
    rw [h0]
    exact Nat.zero_le _
  | tail _hpre hstep ih => exact procStep_preserves_bound _ _ hstep ih

/-- Witness for C9 at the concrete start state. -/
theorem C9_concurrency_bound_witness :
    sampleProcState.runningJobs = 0 ∧
    (sampleProcState.runningJobs ≤ sampleProcState.concurrency ∧
     ∀ (now : Nat) (jitterOf : Job → Nat),
       (processTick now jitterOf sampleProcState).claimed.length
         ≤ sampleProcState.concurrency - sampleProcState.runningJobs) :=
  ⟨rfl, C9_concurrency_bound sampleProcState sampleProcState rfl
    Relation.ReflTransGen.refl⟩

/-- C10: `prepareJobFailure` produces a record with `attempts` incremented
by one, `active` cleared, `failed` stamped with the current time, and
`lastError` set to the error message with every other metaData entry
preserved, while every remaining field is unchanged (the input record
itself is untouched: the function copies before mutating). -/
theorem C10_prepareJobFailure_frame (now : Nat) (job : Job) (msg : String) :
    (prepareJobFailure now job msg).attempts = job.attempts + 1 ∧
    (prepareJobFailure now job msg).active = false ∧
    (prepareJobFailure now job msg).failed = some now ∧
    metaLookup ((prepareJobFailure now job msg).metaData.getD []) "lastError"
      = some msg ∧
    (∀ k, k ≠ "lastError" →
      metaLookup ((prepareJobFailure now job msg).metaData.getD []) k
        = metaLookup (job.metaData.getD []) k) ∧
    (prepareJobFailure now job msg).id = job.id ∧
    (prepareJobFailure now job msg).name = job.name ∧
    (prepareJobFailure now job msg).payload = job.payload ∧
    (prepareJobFailure now job msg).priority = job.priority ∧
    (prepareJobFailure now job msg).maxAttempts = job.maxAttempts ∧
    (prepareJobFailure now job msg).timeInterval = job.timeInterval ∧
    (prepareJobFailure now job msg).ttl = job.ttl ∧
    (prepareJobFailure now job msg).onlineOnly = job.onlineOnly ∧
    (prepareJobFailure now job msg).timeout = job.timeout ∧
    (prepareJobFailure now job msg).created = job.created ∧
    (prepareJobFailure now job msg).workerName = job.workerName := by
  refine ⟨rfl, rfl, rfl, metaLookup_metaSet_self _ _ _, ?_, rfl, rfl, rfl,
    rfl, rfl, rfl, rfl, rfl, rfl, rfl, rfl⟩
  intro k hk
  exact metaLookup_metaSet_ne _ _ _ k hk

/-- Witness for C10 at a concrete failing job. -/
theorem C10_prepareJobFailure_frame_witness :
    (prepareJobFailure 5 sampleJob "boom").attempts = sampleJob.attempts + 1 ∧
    metaLookup ((prepareJobFailure 5 sampleJob "boom").metaData.getD [])
      "lastError" = some "boom" ∧
    ("k" ≠ "lastError" ∧
     metaLookup ((prepareJobFailure 5 sampleJob "boom").metaData.getD []) "k"
       = metaLookup (sampleJob.metaData.getD []) "k") :=
  ⟨(C10_prepareJobFailure_frame 5 sampleJob "boom").1,
   (C10_prepareJobFailure_frame 5 sampleJob "boom").2.2.2.1,
   by decide,
   (C10_prepareJobFailure_frame 5 sampleJob "boom").2.2.2.2.1 "k" (by decide)⟩

end ExpoQueue
